import Mathlib

/-
Verification development for the auto-reload development server of this
repository (dev_server.py and simple_dev_server.py).

Modelling conventions, shared by everything below:
* Byte strings (Python bytes) are modelled as `List Char`; every byte string
  appearing in the claims is ASCII, so character-for-byte is exact there.
* The Python scan primitives are embedded one to one:
  `begins` is bytes.startswith, `hasSub` is the membership test
  (pat in s), and `pyReplace` is s.replace(pat, rep), which replaces
  EVERY non-overlapping occurrence left to right.
* Timestamps (time.time(), st_mtime) are modelled as integers with exact
  arithmetic; the debounce comparisons of the source are order comparisons
  of differences and do not depend on sub-unit granularity.
* Reload delivery (send_reload_signal / trigger_reload, a best-effort HTTP
  request that the source fires once per accepted change) is modelled by a
  counter `reloads` counting how often it is invoked; this is the observable
  advance of the ReloadSignal of the specification.
-/

set_option maxRecDepth 40000

universe u

section PythonBytes

variable {α : Type u} [DecidableEq α]

/-- Python bytes.startswith: pat is an initial segment of s. -/
def begins : List α → List α → Bool
  | [], _ => true
  | _ :: _, [] => false
  | a :: pat, b :: s => decide (a = b) && begins pat s

/-- Python membership test (pat in s): pat occurs contiguously in s. -/
def hasSub (pat : List α) : List α → Bool
  | [] => begins pat []
  | b :: s => begins pat (b :: s) || hasSub pat s

/-- Fuel-indexed left-to-right non-overlapping replacement.  With fuel at
least the length of s this is Python s.replace(pat, rep) for non-empty pat;
the fuel-exhausted fallback is unreachable under that bound. -/
def pyReplaceAux (pat rep : List α) : Nat → List α → List α
  | _, [] => []
  | 0, s => s
  | fuel + 1, b :: s =>
    if begins pat (b :: s) then
      rep ++ pyReplaceAux pat rep fuel (List.drop pat.length (b :: s))
    else
      b :: pyReplaceAux pat rep fuel s

/-- Python s.replace(pat, rep) for non-empty pat. -/
def pyReplace (pat rep s : List α) : List α := pyReplaceAux pat rep s.length s

end PythonBytes

/-! ## Markers and injected scripts

The byte strings of the source.  The opening marker is the five bytes
checked by the containment tests in dev_server.py line 84 and
simple_dev_server.py line 35; the closing marker is the replace target of
dev_server.py line 126 and simple_dev_server.py line 76.  The two scripts
are the reload_script byte literals (dev_server.py lines 94 to 121,
simple_dev_server.py lines 44 to 71); braces are written as hex escapes
(x7b, x7d) and single quotation marks as x27, denoting the same
characters. -/

def htmlMark : List Char := "<html".data

def bodyClose : List Char := "</body>".data

def devReloadScript : List Char := "\n<script>\n// Auto-reload functionality\n(function() \x7b\n    let lastCheck = Date.now();\n    const checkInterval = 1000; // Check every second\n    \n    function checkForReload() \x7b\n        fetch(\x27/reload?t=\x27 + Date.now())\n            .then(response => response.json())\n            .then(data => \x7b\n                if (data.reload) \x7b\n                    console.log(\x27🔄 Auto-reloading...\x27);\n                    window.location.reload();\n                \x7d\n            \x7d)\n            .catch(() => \x7b\n                // Server might be restarting, try again later\n            \x7d);\n    \x7d\n    \n    // Start checking for reloads\n    setInterval(checkForReload, checkInterval);\n    \n    console.log(\x27🔄 Auto-reload enabled\x27);\n\x7d)();\n</script>\n".data

def simpleReloadScript : List Char := "\n<script>\n// Simple auto-reload functionality\n(function() \x7b\n    let lastCheck = Date.now();\n    const checkInterval = 2000; // Check every 2 seconds\n    \n    function checkForReload() \x7b\n        fetch(\x27/reload?t=\x27 + Date.now())\n            .then(response => response.json())\n            .then(data => \x7b\n                if (data.reload) \x7b\n                    console.log(\x27🔄 Auto-reloading...\x27);\n                    window.location.reload();\n                \x7d\n            \x7d)\n            .catch(() => \x7b\n                // Server might be restarting, try again later\n            \x7d);\n    \x7d\n    \n    // Start checking for reloads\n    setInterval(checkForReload, checkInterval);\n    \n    console.log(\x27🔄 Auto-reload enabled - checking every 2 seconds\x27);\n\x7d)();\n</script>\n".data

/-! ## ContentRewriter

The body transformation applied to HTML responses.  The replace step is
the body of inject_reload_script (dev_server.py lines 123 to 127,
simple_dev_server.py lines 73 to 77): content.replace(closing tag,
script + closing tag), guarded by a containment test for the closing tag.
The opening marker guard sits in the caller (dev_server.py line 84;
simple_dev_server.py line 35 checks both markers before calling).  Both
variants therefore rewrite a body exactly when it contains the opening
marker and the closing tag, and the rewrite is the Python replace. -/

/-- inject_reload_script restricted to its pure body transformation. -/
def inject_reload_script (script content : List Char) : List Char :=
  if hasSub bodyClose content then
    pyReplace bodyClose (script ++ bodyClose) content
  else content

/-- The composed body transformation of either server variant: opening
marker guard (caller), then inject_reload_script. -/
def contentRewriter (script content : List Char) : List Char :=
  if hasSub htmlMark content then inject_reload_script script content
  else content

/-! ## HTTP request handling

The wire model: a response is the list of protocol-level actions a handler
performs, in order (send_response, send_header, end_headers, wfile.write).
The static file collaborator SimpleHTTPRequestHandler.do_GET is external
(Python standard library) and is abstracted as a function from the request
path to the wire items it emits. -/

/-- One protocol-level action of a request handler. -/
inductive WireItem : Type where
  | status : Nat → WireItem
  | header : String → String → WireItem
  | endHeaders : WireItem
  | chunk : List Char → WireItem
deriving DecidableEq

/-- Python str.endswith. -/
def endswith (s post : String) : Bool := begins post.data.reverse s.data.reverse

/-- The reload endpoint body (dev_server.py line 78, simple_dev_server.py
line 26). -/
def reloadBody : List Char := "\x7b\"reload\": true\x7d".data

/-- The response both variants emit for the exact path /reload
(dev_server.py lines 74 to 78, simple_dev_server.py lines 22 to 26). -/
def reloadResponse : List WireItem :=
  [WireItem.status 200, WireItem.header "Content-type" "application/json",
   WireItem.header "Access-Control-Allow-Origin" "*", WireItem.endHeaders,
   WireItem.chunk reloadBody]

/-- The value of the handler attribute _content at the time of the hasattr
checks: SimpleHTTPRequestHandler never defines an attribute of that name,
and the only assignments to it in the repository (dev_server.py line 127,
simple_dev_server.py line 77) sit inside inject_reload_script, which is
reachable only after a hasattr check has already succeeded.  The attribute
is therefore always absent at the check, modelled as none. -/
def initContent : Option (List Char) := none

/-- The wire items DevHTTPRequestHandler.inject_reload_script emits
(dev_server.py lines 89 to 131): when the closing tag occurs it rewrites
the stored content, sends a Content-Length header for the rewritten
length, ends headers and writes the rewritten body; otherwise it emits
nothing. -/
def dev_inject_emit (content : List Char) : List WireItem :=
  if hasSub bodyClose content then
    [WireItem.header "Content-Length"
        (toString (pyReplace bodyClose (devReloadScript ++ bodyClose) content).length),
     WireItem.endHeaders,
     WireItem.chunk (pyReplace bodyClose (devReloadScript ++ bodyClose) content)]
  else []

/-- DevHTTPRequestHandler.do_GET (dev_server.py lines 71 to 87).
superGET abstracts the static file collaborator; content is the value of
the _content attribute at entry. -/
def dev_do_GET (superGET : String → List WireItem) (content : Option (List Char))
    (path : String) : List WireItem :=
  if path = "/reload" then reloadResponse
  else if endswith path ".html" || path == "/" then
    superGET path ++ (match content with
      | some c => if hasSub htmlMark c then dev_inject_emit c else []
      | none => [])
  else superGET path

/-- The wire items AutoReloadHTTPRequestHandler.inject_reload_script emits
(simple_dev_server.py lines 39 to 79): a Content-Length header for the
rewritten length when the closing tag occurs, nothing otherwise. -/
def simple_inject_emit (content : List Char) : List WireItem :=
  if hasSub bodyClose content then
    [WireItem.header "Content-Length"
        (toString (pyReplace bodyClose (simpleReloadScript ++ bodyClose) content).length)]
  else []

/-- AutoReloadHTTPRequestHandler.end_headers (simple_dev_server.py lines
32 to 37): the extra wire items emitted before the terminating end of
headers of the base class. -/
def simple_end_headers (path : String) (content : Option (List Char)) : List WireItem :=
  (if endswith path ".html" || path == "/" then
    match content with
    | some c =>
      if hasSub htmlMark c && hasSub bodyClose c then simple_inject_emit c else []
    | none => []
  else []) ++ [WireItem.endHeaders]

/-- AutoReloadHTTPRequestHandler.do_GET (simple_dev_server.py lines 19 to
30). -/
def simple_do_GET (superGET : String → List WireItem) (path : String) : List WireItem :=
  if path = "/reload" then reloadResponse else superGET path

/-! ## Event-driven change detection (dev_server.py AutoReloadHandler) -/

/-- A watchdog file-system event, together with the value time.time()
returns while the handler processes it. -/
structure FsEvent : Type where
  is_directory : Bool
  src_path : String
  time : Int
deriving DecidableEq

/-- The endswith tuple test of dev_server.py line 31. -/
def watchedPath (p : String) : Bool :=
  endswith p ".html" || endswith p ".css" || endswith p ".js" || endswith p ".json"

/-- Mutable state of AutoReloadHandler: last_reload (initialised to 0 in
the constructor) and the number of send_reload_signal calls performed,
which counts the accepted change episodes, i.e. the advances of the
ReloadSignal of the specification. -/
structure AutoReloadHandler : Type where
  last_reload : Int
  reloads : Nat
deriving DecidableEq

/-- reload_delay of dev_server.py line 24. -/
def AutoReloadHandler.reload_delay : Int := 1

/-- AutoReloadHandler.on_modified (dev_server.py lines 26 to 44). -/
def on_modified (s : AutoReloadHandler) (e : FsEvent) : AutoReloadHandler :=
  if e.is_directory then s
  else if !watchedPath e.src_path then s
  else if e.time - s.last_reload < AutoReloadHandler.reload_delay then s
  else { last_reload := e.time, reloads := s.reloads + 1 }

/-! ## Polling change detection (simple_dev_server.py FileWatcher) -/

/-- One entry of the rglob enumeration of a polling cycle: the path string,
the is_file test, the Path.suffix value, and the stat().st_mtime result
(none when stat raises OSError or FileNotFoundError, e.g. because the
file vanished between enumeration and stat). -/
structure ScanEntry : Type where
  path : String
  is_file : Bool
  suffix : String
  mtime : Option Int
deriving DecidableEq

/-- The suffix membership test of simple_dev_server.py lines 99 and 114. -/
def watchedSuffix (s : String) : Bool :=
  s == ".html" || s == ".css" || s == ".js" || s == ".json"

/-- The filter of the loop: regular file with a watched suffix. -/
def relevantEntry (e : ScanEntry) : Bool := e.is_file && watchedSuffix e.suffix

/-- Python dict update: replace in place if the key exists, append
otherwise. -/
def dictInsert (k : String) (v : Int) : List (String × Int) → List (String × Int)
  | [] => [(k, v)]
  | (k2, v2) :: rest =>
    if k = k2 then (k, v) :: rest else (k2, v2) :: dictInsert k v rest

/-- Mutable state of FileWatcher: the file_times snapshot, last_reload,
and the number of trigger_reload calls performed (the ReloadSignal
advances). -/
structure FileWatcher : Type where
  file_times : List (String × Int)
  last_reload : Int
  reloads : Nat
deriving DecidableEq

/-- reload_delay of simple_dev_server.py line 89. -/
def FileWatcher.reload_delay : Int := 2

/-- The for loop of FileWatcher.check_for_changes (simple_dev_server.py
lines 113 to 132): scan entries in order; skip irrelevant entries and
entries whose stat failed; on the first known path with a strictly newer
timestamp, trigger the reload, update the snapshot entry, set last_reload
to the current time and return; record unknown paths without
triggering. -/
def check_loop (now : Int) (ft : List (String × Int)) (last : Int) (r : Nat) :
    List ScanEntry → FileWatcher
  | [] => ⟨ft, last, r⟩
  | e :: rest =>
    if relevantEntry e then
      match e.mtime with
      | none => check_loop now ft last r rest
      | some m =>
        match List.lookup e.path ft with
        | some old =>
          if old < m then ⟨dictInsert e.path m ft, now, r + 1⟩
          else check_loop now ft last r rest
        | none => check_loop now (dictInsert e.path m ft) last r rest
    else check_loop now ft last r rest

/-- FileWatcher.check_for_changes (simple_dev_server.py lines 105 to 132):
debounce guard, then the scan loop. -/
def check_for_changes (now : Int) (st : FileWatcher) (entries : List ScanEntry) :
    FileWatcher :=
  if now - st.last_reload < FileWatcher.reload_delay then st
  else check_loop now st.file_times st.last_reload st.reloads entries

/-- FileWatcher.scan_files (simple_dev_server.py lines 95 to 103): rebuild
the snapshot from scratch, recording every relevant file whose stat
succeeds. -/
def scan_files (entries : List ScanEntry) : List (String × Int) :=
  entries.foldl
    (fun ft e =>
      if relevantEntry e then
        match e.mtime with
        | some m => dictInsert e.path m ft
        | none => ft
      else ft)
    []

/-! ## Concrete scenario data (endpoint liveness scenario of the
specification: a served index.html) -/

/-- The demo document of the endpoint liveness scenario. -/
def rawIndex : List Char := "<html><body>Hi</body></html>".data

/-- A concrete static file collaborator: serves rawIndex at /, a plain 404
otherwise. -/
def staticServe : String → List WireItem := fun p =>
  if p = "/" then
    [WireItem.status 200, WireItem.header "Content-type" "text/html",
     WireItem.header "Content-Length" (toString rawIndex.length),
     WireItem.endHeaders, WireItem.chunk rawIndex]
  else [WireItem.status 404, WireItem.endHeaders]

section PythonBytesLemmas

variable {α : Type u} [DecidableEq α]

theorem begins_append (pat t : List α) : begins pat (pat ++ t) = true := by
  induction pat with
  | nil => rfl
  | cons a p ih => simp [begins, ih]

theorem eq_of_begins : ∀ {pat s : List α}, begins pat s = true →
    s = pat ++ s.drop pat.length := by
  intro pat
  induction pat with
  | nil => intro s _; simp
  | cons a p ih =>
    intro s h
    cases s with
    | nil => exact absurd h (by simp [begins])
    | cons b t =>
      simp only [begins, Bool.and_eq_true, decide_eq_true_eq] at h
      obtain ⟨hab, h2⟩ := h
      subst hab
      have := ih h2
      simp only [List.length_cons, List.drop_succ_cons, List.cons_append]
      exact congrArg (List.cons a) this

theorem hasSub_append (pat x y : List α) : hasSub pat (x ++ (pat ++ y)) = true := by
  induction x with
  | nil =>
    simp only [List.nil_append]
    cases h : pat ++ y with
    | nil =>
      have hp : pat = [] := by cases pat <;> simp_all
      simp [hp, hasSub, begins]
    | cons b s =>
      have hb : begins pat (b :: s) = true := by
        rw [← h]; exact begins_append pat y
      rw [hasSub, hb, Bool.true_or]
  | cons c x ih =>
    simp only [List.cons_append]
    rw [hasSub, ih, Bool.or_true]

/-- If pat occurs at a position whose full extent lies inside the first m
elements, then pat occurs in the m-element initial segment; stated in the
contrapositive form used to discharge no-early-occurrence side conditions. -/
theorem begins_drop_eq_false_of_take {pat s : List α} {m i : Nat}
    (hwin : hasSub pat (s.take m) = false) (him : i + pat.length ≤ m) :
    begins pat (s.drop i) = false := by
  cases hb : begins pat (s.drop i) with
  | false => rfl
  | true =>
    exfalso
    have hdec := eq_of_begins hb
    have hs : s = s.take i ++ (pat ++ (s.drop i).drop pat.length) :=
      ((List.take_append_drop i s).symm).trans
        (congrArg (fun z => s.take i ++ z) hdec)
    have hlen1 : (s.take i).length ≤ m := by
      rw [List.length_take]
      have : i ≤ m := by omega
      exact le_trans (min_le_left _ _) this
    have hlen2 : pat.length ≤ m - (s.take i).length := by
      rw [List.length_take]
      have h1 : (i ⊓ s.length) ≤ i := min_le_left _ _
      omega
    have hss : hasSub pat (s.take m) = true := by
      conv_lhs => rw [hs]
      rw [List.take_append_eq_append_take, List.take_of_length_le hlen1,
        List.take_append_eq_append_take, List.take_of_length_le hlen2]
      exact hasSub_append pat (s.take i) _
    rw [hss] at hwin
    simp at hwin

theorem pyReplaceAux_of_not_hasSub {pat : List α} (rep : List α) :
    ∀ (fuel : Nat) (s : List α), hasSub pat s = false →
      pyReplaceAux pat rep fuel s = s := by
  intro fuel
  induction fuel with
  | zero => intro s _; cases s <;> rfl
  | succ f ih =>
    intro s h
    cases s with
    | nil => rfl
    | cons b t =>
      rw [hasSub, Bool.or_eq_false_iff] at h
      obtain ⟨h1, h2⟩ := h
      simp [pyReplaceAux, h1, ih t h2]

theorem pyReplaceAux_fuel {pat rep : List α} (hp : pat ≠ []) :
    ∀ (f₁ f₂ : Nat) (s : List α), s.length ≤ f₁ → s.length ≤ f₂ →
      pyReplaceAux pat rep f₁ s = pyReplaceAux pat rep f₂ s := by
  have hplen : 0 < pat.length := List.length_pos.mpr hp
  intro f₁
  induction f₁ with
  | zero =>
    intro f₂ s h1 _
    have : s = [] := by cases s <;> simp_all
    subst this
    cases f₂ <;> rfl
  | succ f ih =>
    intro f₂ s h1 h2
    cases s with
    | nil => cases f₂ <;> rfl
    | cons b t =>
      cases f₂ with
      | zero => simp at h2
      | succ g =>
        simp only [List.length_cons] at h1 h2
        cases hb : begins pat (b :: t) with
        | true =>
          have hdec := eq_of_begins hb
          have hdl : ((b :: t).drop pat.length).length = t.length + 1 - pat.length := by
            rw [List.length_drop, List.length_cons]
          simp only [pyReplaceAux, hb, if_true]
          rw [ih f ((b :: t).drop pat.length) (by omega) (by omega)]
          rw [ih g ((b :: t).drop pat.length) (by omega) (by omega)]
        | false =>
          simp only [pyReplaceAux, hb, Bool.false_eq_true, if_false]
          rw [ih g t (by omega) (by omega)]

theorem pyReplaceAux_insert {pat rep : List α} (hp : pat ≠ []) :
    ∀ (u : List α) (w : List α) (fuel : Nat), (u ++ (pat ++ w)).length ≤ fuel →
      (∀ i, i < u.length → begins pat ((u ++ (pat ++ w)).drop i) = false) →
      pyReplaceAux pat rep fuel (u ++ (pat ++ w))
        = u ++ (rep ++ pyReplaceAux pat rep w.length w) := by
  intro u
  induction u with
  | nil =>
    intro w fuel hf _
    obtain ⟨p, pt, hpd⟩ : ∃ p pt, pat = p :: pt := by
      cases pat with
      | nil => exact absurd rfl hp
      | cons p pt => exact ⟨p, pt, rfl⟩
    simp only [List.nil_append] at hf ⊢
    rw [List.length_append] at hf
    have hplen : 0 < pat.length := List.length_pos.mpr hp
    cases fuel with
    | zero => omega
    | succ f =>
      have hcons : pat ++ w = p :: (pt ++ w) := by rw [hpd]; rfl
      have hb : begins pat (p :: (pt ++ w)) = true := by
        rw [← hcons]; exact begins_append pat w
      rw [hcons, pyReplaceAux, if_pos (by rw [hb]), ← hcons, List.drop_left]
      rw [pyReplaceAux_fuel hp f w.length w (by omega) (le_refl _)]
  | cons a u ih =>
    intro w fuel hf hno
    cases fuel with
    | zero =>
      exfalso
      simp only [List.cons_append, List.length_cons] at hf
      omega
    | succ f =>
      have h0 : begins pat (a :: (u ++ (pat ++ w))) = false := by
        have := hno 0 (by simp)
        simpa using this
      simp only [List.cons_append] at hf ⊢
      simp only [List.length_cons] at hf
      have ihw := ih w f (by omega) (fun i hi => by
        have := hno (i + 1) (by simpa using Nat.succ_lt_succ hi)
        simpa [List.drop_succ_cons] using this)
      rw [pyReplaceAux, if_neg (by rw [h0]; exact Bool.false_ne_true), ihw]

/-- Inserting at the unique occurrence: if pat occurs nowhere before
position u.length and nowhere in w, then replace rewrites u ++ (pat ++ w)
to u ++ (rep ++ w). -/
theorem pyReplace_single {pat rep : List α} (hp : pat ≠ [])
    (u w : List α)
    (hno : ∀ i, i < u.length → begins pat ((u ++ (pat ++ w)).drop i) = false)
    (hw : hasSub pat w = false) :
    pyReplace pat rep (u ++ (pat ++ w)) = u ++ (rep ++ w) := by
  unfold pyReplace
  rw [pyReplaceAux_insert hp u w _ (le_refl _) hno,
    pyReplaceAux_of_not_hasSub rep w.length w hw]

theorem length_le_pyReplaceAux {pat rep : List α} (hlen : pat.length ≤ rep.length) :
    ∀ (fuel : Nat) (s : List α), s.length ≤ (pyReplaceAux pat rep fuel s).length := by
  intro fuel
  induction fuel with
  | zero =>
    intro s
    cases s <;> simp [pyReplaceAux]
  | succ f ih =>
    intro s
    cases s with
    | nil => simp [pyReplaceAux]
    | cons b t =>
      cases hb : begins pat (b :: t) with
      | true =>
        have hdec := eq_of_begins hb
        have h3 : (b :: t).length = pat.length + ((b :: t).drop pat.length).length := by
          conv_lhs => rw [hdec]
          rw [List.length_append]
        simp only [pyReplaceAux, hb, if_true, List.length_append]
        have h1 := ih ((b :: t).drop pat.length)
        omega
      | false =>
        simp only [pyReplaceAux, hb, Bool.false_eq_true, if_false, List.length_cons]
        exact Nat.succ_le_succ (ih t)

theorem pyReplaceAux_grow {pat rep : List α} (hp : pat ≠ [])
    (hlen : pat.length ≤ rep.length) :
    ∀ (fuel : Nat) (s : List α), s.length ≤ fuel → hasSub pat s = true →
      s.length + rep.length ≤ (pyReplaceAux pat rep fuel s).length + pat.length := by
  have hbnil : begins pat [] = false := by
    cases pat with
    | nil => exact absurd rfl hp
    | cons p pt => rfl
  intro fuel
  induction fuel with
  | zero =>
    intro s hs h
    have : s = [] := by cases s <;> simp_all
    subst this
    rw [hasSub, hbnil] at h
    exact absurd h Bool.false_ne_true
  | succ f ih =>
    intro s hs h
    cases s with
    | nil =>
      rw [hasSub, hbnil] at h
      exact absurd h Bool.false_ne_true
    | cons b t =>
      simp only [List.length_cons] at hs
      cases hb : begins pat (b :: t) with
      | true =>
        have hdec := eq_of_begins hb
        have h3 : (b :: t).length = pat.length + ((b :: t).drop pat.length).length := by
          conv_lhs => rw [hdec]
          rw [List.length_append]
        simp only [pyReplaceAux, hb, if_true, List.length_append]
        have h1 := length_le_pyReplaceAux hlen f ((b :: t).drop pat.length)
        simp only [List.length_cons] at h3 ⊢
        omega
      | false =>
        have ht : hasSub pat t = true := by
          rw [hasSub, hb, Bool.false_or] at h
          exact h
        have := ih t (by omega) ht
        simp only [pyReplaceAux, hb, Bool.false_eq_true, if_false, List.length_cons]
        omega

end PythonBytesLemmas

/-! ## ContentRewriter: shared characterization -/

/-- Shared helper: when the closing tag first occurs at position u.length,
occurs nowhere in the tail v, and the opening marker is present, the
rewriter inserts the script immediately before that occurrence and keeps
every other character. -/
theorem rewriteAtFirst (script u v : List Char)
    (hno : ∀ i, i < u.length →
        begins bodyClose ((u ++ (bodyClose ++ v)).drop i) = false)
    (hv : hasSub bodyClose v = false)
    (hhtml : hasSub htmlMark (u ++ (bodyClose ++ v)) = true) :
    contentRewriter script (u ++ (bodyClose ++ v))
      = u ++ (script ++ (bodyClose ++ v)) := by
  have hbc : hasSub bodyClose (u ++ (bodyClose ++ v)) = true := hasSub_append _ _ _
  unfold contentRewriter inject_reload_script
  rw [if_pos (by rw [hhtml]), if_pos (by rw [hbc])]
  rw [pyReplace_single (by decide) u v hno hv]
  simp [List.append_assoc]

/-- C3 (amended): when the closing body tag occurs exactly once (first
occurrence at position u.length, none in the tail) and the opening html
marker is present, the rewriter inserts the polling script exactly once,
immediately before that occurrence, and every other character of the body
is preserved.  (As originally stated the claim fails: the replace step of
the source rewrites every occurrence of the closing tag, see the
counterexample.) -/
theorem injection_once_at_first_occurrence (script u v : List Char)
    (hno : ∀ i, i < u.length →
        begins bodyClose ((u ++ (bodyClose ++ v)).drop i) = false)
    (hv : hasSub bodyClose v = false)
    (hhtml : hasSub htmlMark (u ++ (bodyClose ++ v)) = true) :
    contentRewriter script (u ++ (bodyClose ++ v))
      = u ++ (script ++ (bodyClose ++ v)) :=
  rewriteAtFirst script u v hno hv hhtml

/-- Witness for C3 on the demo document. -/
theorem injection_once_at_first_occurrence_witness :
    (∀ i, i < ("<html><body>Hi".data).length →
        begins bodyClose (("<html><body>Hi".data ++ (bodyClose ++ "</html>".data)).drop i) = false)
    ∧ hasSub bodyClose "</html>".data = false
    ∧ hasSub htmlMark ("<html><body>Hi".data ++ (bodyClose ++ "</html>".data)) = true
    ∧ contentRewriter devReloadScript ("<html><body>Hi".data ++ (bodyClose ++ "</html>".data))
        = "<html><body>Hi".data ++ (devReloadScript ++ (bodyClose ++ "</html>".data)) :=
  ⟨by decide, by decide, by decide,
    injection_once_at_first_occurrence devReloadScript "<html><body>Hi".data "</html>".data
      (by decide) (by decide) (by decide)⟩

/-- C3 counterexample: a body satisfying the injection precondition but
containing the closing tag twice is NOT rewritten by a single insertion
before the first occurrence; the source replace step inserts the script
before every occurrence. -/
theorem injection_not_single_on_two_tags :
    contentRewriter devReloadScript "<html><body>A</body>B</body>".data
      ≠ "<html><body>A".data ++ (devReloadScript ++ "</body>B</body>".data) := by
  have hd : "<html><body>A</body>B</body>".data
      = "<html><body>A".data ++ (bodyClose ++ ("B".data ++ (bodyClose ++ ([] : List Char)))) := by
    decide
  have hguard1 : hasSub htmlMark "<html><body>A</body>B</body>".data = true := by decide
  have hguard2 : hasSub bodyClose "<html><body>A</body>B</body>".data = true := by decide
  have hLHS : contentRewriter devReloadScript "<html><body>A</body>B</body>".data
      = "<html><body>A".data ++ ((devReloadScript ++ bodyClose)
          ++ ("B".data ++ ((devReloadScript ++ bodyClose) ++ ([] : List Char)))) := by
    unfold contentRewriter inject_reload_script
    rw [if_pos (by rw [hguard1]), if_pos (by rw [hguard2])]
    unfold pyReplace
    conv_lhs => rw [hd]
    rw [pyReplaceAux_insert (by decide) "<html><body>A".data
      ("B".data ++ (bodyClose ++ ([] : List Char))) _ (by rw [← hd]) (by decide)]
    rw [pyReplaceAux_insert (by decide) "B".data ([] : List Char) _ (le_refl _) (by decide)]
    rfl
  rw [hLHS]
  intro h
  have hlen := congrArg List.length h
  have h7 : bodyClose.length = 7 := by decide
  have hBt : ("</body>B</body>".data).length = 15 := by decide
  have hB : ("B".data).length = 1 := by decide
  have hS : 1 ≤ devReloadScript.length := by decide
  simp only [List.length_append, List.length_nil, h7, hBt, hB] at hlen
  omega

/-- C4: a body lacking the closing body tag or lacking the opening html
marker is returned byte for byte identical by the rewriter. -/
theorem passthrough_without_markers (script body : List Char)
    (h : hasSub bodyClose body = false ∨ hasSub htmlMark body = false) :
    contentRewriter script body = body := by
  unfold contentRewriter inject_reload_script
  rcases h with h | h
  · cases hh : hasSub htmlMark body with
    | false => rw [if_neg Bool.false_ne_true]
    | true => rw [if_pos rfl, if_neg (by rw [h]; exact Bool.false_ne_true)]
  · rw [if_neg (by rw [h]; exact Bool.false_ne_true)]

/-- Witness for C4: a fragment without any closing body tag passes through
unchanged. -/
theorem passthrough_without_markers_witness :
    (hasSub bodyClose "<html><p>fragment".data = false
      ∨ hasSub htmlMark "<html><p>fragment".data = false)
    ∧ contentRewriter devReloadScript "<html><p>fragment".data = "<html><p>fragment".data :=
  ⟨Or.inl (by decide),
    passthrough_without_markers devReloadScript "<html><p>fragment".data (Or.inl (by decide))⟩

/-- C9 (amended): applying the rewriter to an already rewritten body
(script present immediately before the unique closing tag) inserts a
SECOND copy of the script before the closing tag: the rewriter is not
idempotent on its own output; non-duplication in the server follows only
from injection being applied at most once per response construction, to
content freshly produced for that response. -/
theorem reinjection_duplicates_script (script u v : List Char)
    (hno : ∀ i, i < (u ++ script).length →
        begins bodyClose (((u ++ script) ++ (bodyClose ++ v)).drop i) = false)
    (hv : hasSub bodyClose v = false)
    (hhtml : hasSub htmlMark ((u ++ script) ++ (bodyClose ++ v)) = true) :
    contentRewriter script ((u ++ script) ++ (bodyClose ++ v))
      = u ++ (script ++ (script ++ (bodyClose ++ v))) := by
  have := rewriteAtFirst script (u ++ script) v hno hv hhtml
  rw [this]
  simp [List.append_assoc]

/-- Witness for C9 on the rewritten demo document. -/
theorem reinjection_duplicates_script_witness :
    hasSub bodyClose "</html>".data = false
    ∧ hasSub htmlMark (("<html><body>Hi".data ++ devReloadScript) ++ (bodyClose ++ "</html>".data)) = true
    ∧ contentRewriter devReloadScript
        (("<html><body>Hi".data ++ devReloadScript) ++ (bodyClose ++ "</html>".data))
      = "<html><body>Hi".data ++ (devReloadScript ++ (devReloadScript ++ (bodyClose ++ "</html>".data))) :=
  ⟨by decide, by decide,
    reinjection_duplicates_script devReloadScript "<html><body>Hi".data "</html>".data
      (fun i hi => by
        refine begins_drop_eq_false_of_take
          (m := ("<html><body>Hi".data ++ devReloadScript).length + 6) ?_ ?_
        · decide
        · have h7 : bodyClose.length = 7 := by decide
          omega)
      (by decide) (by decide)⟩

/-- C9 counterexample: rewriting the already rewritten demo document
changes it again (a second script copy is inserted): the rewriter is not
idempotent. -/
theorem rewriting_not_idempotent_on_demo :
    contentRewriter devReloadScript
        (contentRewriter devReloadScript "<html><body>Hi</body></html>".data)
      ≠ contentRewriter devReloadScript "<html><body>Hi</body></html>".data := by
  have hd : "<html><body>Hi</body></html>".data
      = "<html><body>Hi".data ++ (bodyClose ++ "</html>".data) := by decide
  have h1 : contentRewriter devReloadScript "<html><body>Hi</body></html>".data
      = "<html><body>Hi".data ++ (devReloadScript ++ (bodyClose ++ "</html>".data)) := by
    rw [hd]
    exact rewriteAtFirst devReloadScript "<html><body>Hi".data "</html>".data
      (by decide) (by decide) (by decide)
  rw [h1]
  have hhtml : hasSub htmlMark
      ("<html><body>Hi".data ++ (devReloadScript ++ (bodyClose ++ "</html>".data))) = true := by
    decide
  have hbc : hasSub bodyClose
      ("<html><body>Hi".data ++ (devReloadScript ++ (bodyClose ++ "</html>".data))) = true := by
    have := hasSub_append bodyClose ("<html><body>Hi".data ++ devReloadScript) "</html>".data
    simpa [List.append_assoc] using this
  unfold contentRewriter inject_reload_script
  rw [if_pos (by rw [hhtml]), if_pos (by rw [hbc])]
  intro h
  have hg := @pyReplaceAux_grow _ _ bodyClose (devReloadScript ++ bodyClose)
    (by decide) (by rw [List.length_append]; omega)
    ("<html><body>Hi".data ++ (devReloadScript ++ (bodyClose ++ "</html>".data))).length
    ("<html><body>Hi".data ++ (devReloadScript ++ (bodyClose ++ "</html>".data)))
    (le_refl _) hbc
  have hlen := congrArg List.length h
  unfold pyReplace at hlen
  have h7 : bodyClose.length = 7 := by decide
  have hS : 1 ≤ devReloadScript.length := by decide
  have hrep : (devReloadScript ++ bodyClose).length
      = devReloadScript.length + bodyClose.length := List.length_append _ _
  omega

/-! ## Request routing -/

/-- C1 (code bug exhibit): both variants answer the reload endpoint only
for the exact path /reload.  A request carrying a cache-busting query,
/reload?t=..., is routed to the static file collaborator instead of
receiving the 200 JSON CORS response, although the injected poller of the
source itself requests exactly that form. -/
theorem reload_routing_exact_path_only (superGET : String → List WireItem) :
    dev_do_GET superGET initContent "/reload?t=123" = superGET "/reload?t=123"
    ∧ simple_do_GET superGET "/reload?t=123" = superGET "/reload?t=123"
    ∧ dev_do_GET superGET initContent "/reload" = reloadResponse
    ∧ simple_do_GET superGET "/reload" = reloadResponse := by
  refine ⟨?_, ?_, ?_, ?_⟩
  · unfold dev_do_GET
    rw [if_neg (by decide), if_neg (by decide)]
  · unfold simple_do_GET
    rw [if_neg (by decide)]
  · unfold dev_do_GET
    rw [if_pos rfl]
  · unfold simple_do_GET
    rw [if_pos rfl]

/-- C2 (code bug exhibit): in the endpoint liveness scenario (GET / of a
directory whose index.html is the demo document) the emitted response is
exactly the static collaborator response: although the body satisfies the
injection precondition, no script block is injected and no Content-Length
is recomputed, because the _content attribute is never assigned and every
hasattr guard fails. -/
theorem no_injection_on_served_html :
    dev_do_GET staticServe initContent "/" = staticServe "/"
    ∧ simple_end_headers "/" initContent = [WireItem.endHeaders]
    ∧ hasSub htmlMark rawIndex = true
    ∧ hasSub bodyClose rawIndex = true
    ∧ hasSub "<script".data rawIndex = false := by
  exact ⟨by decide, by decide, by decide, by decide, by decide⟩

/-- C10: for every path other than exactly /reload, both handler variants
emit exactly the wire items of the underlying static handler: the
HTML-rewriting branches are guarded by a hasattr test on the _content
attribute, which no code path ever assigns before the guard, so the
handlers are observably the plain static handler there. -/
theorem handlers_equal_static_off_reload (superGET : String → List WireItem)
    (path : String) (h : path ≠ "/reload") :
    dev_do_GET superGET initContent path = superGET path
    ∧ simple_do_GET superGET path = superGET path
    ∧ simple_end_headers path initContent = [WireItem.endHeaders] := by
  refine ⟨?_, ?_, ?_⟩
  · unfold dev_do_GET initContent
    rw [if_neg h]
    cases hc : (endswith path ".html" || path == "/") with
    | false => rw [if_neg Bool.false_ne_true]
    | true =>
      rw [if_pos rfl]
      simp
  · unfold simple_do_GET
    rw [if_neg h]
  · unfold simple_end_headers initContent
    cases hc : (endswith path ".html" || path == "/") with
    | false =>
      rw [if_neg Bool.false_ne_true]
      simp
    | true =>
      rw [if_pos rfl]
      simp

/-- Witness for C10 at a concrete non-reload path and collaborator. -/
theorem handlers_equal_static_off_reload_witness :
    ("/index.html" ≠ "/reload")
    ∧ dev_do_GET staticServe initContent "/index.html" = staticServe "/index.html"
    ∧ simple_do_GET staticServe "/index.html" = staticServe "/index.html"
    ∧ simple_end_headers "/index.html" initContent = [WireItem.endHeaders] :=
  ⟨by decide,
    (handlers_equal_static_off_reload staticServe "/index.html" (by decide)).1,
    (handlers_equal_static_off_reload staticServe "/index.html" (by decide)).2.1,
    (handlers_equal_static_off_reload staticServe "/index.html" (by decide)).2.2⟩

/-! ## Change detection -/

/-- Shared helper: an event accepted by on_modified updates the timestamp
and advances the reload count by one. -/
theorem on_modified_accepts (s : AutoReloadHandler) (e : FsEvent)
    (hd : e.is_directory = false) (hw : watchedPath e.src_path = true)
    (ht : ¬ e.time - s.last_reload < AutoReloadHandler.reload_delay) :
    on_modified s e = ⟨e.time, s.reloads + 1⟩ := by
  unfold on_modified
  rw [if_neg (by rw [hd]; exact Bool.false_ne_true),
    if_neg (by rw [hw]; exact Bool.false_ne_true), if_neg ht]

/-- Shared helper: on_modified never changes a state whose last_reload is
within one reload_delay of every event time in the list. -/
theorem on_modified_frozen (t : Int) (r : Nat) :
    ∀ es : List FsEvent,
      (∀ e2 ∈ es, e2.time - t < AutoReloadHandler.reload_delay) →
      List.foldl on_modified ⟨t, r⟩ es = ⟨t, r⟩ := by
  intro es
  induction es with
  | nil => intro _; rfl
  | cons e2 rest ih =>
    intro h
    have h1 : on_modified ⟨t, r⟩ e2 = ⟨t, r⟩ := by
      unfold on_modified
      cases hd : e2.is_directory with
      | true => rw [if_pos rfl]
      | false =>
        rw [if_neg Bool.false_ne_true]
        cases hw : watchedPath e2.src_path with
        | false => rw [if_pos (by decide)]
        | true =>
          rw [if_neg (by decide), if_pos (h e2 (List.mem_cons_self _ _))]
    rw [List.foldl_cons, h1]
    exact ih (fun e3 he => h e3 (List.mem_cons_of_mem _ he))

/-- C5: debouncing.  A relevant notification arriving within one
reload_delay of the last accepted change is discarded; an accepted one
updates last_reload to the event time and advances the reload count by
exactly one; a burst of notifications all within one window of the first
accepted change advances the count exactly once, not once per
notification; the polling detector likewise skips a whole cycle started
within one window of the last accepted change. -/
theorem debounce_single_advance :
    (∀ (s : AutoReloadHandler) (e : FsEvent),
        e.is_directory = false → watchedPath e.src_path = true →
        e.time - s.last_reload < AutoReloadHandler.reload_delay →
        on_modified s e = s)
    ∧ (∀ (s : AutoReloadHandler) (e : FsEvent),
        e.is_directory = false → watchedPath e.src_path = true →
        ¬ e.time - s.last_reload < AutoReloadHandler.reload_delay →
        on_modified s e = ⟨e.time, s.reloads + 1⟩)
    ∧ (∀ (s : AutoReloadHandler) (e : FsEvent) (es : List FsEvent),
        e.is_directory = false → watchedPath e.src_path = true →
        ¬ e.time - s.last_reload < AutoReloadHandler.reload_delay →
        (∀ e2 ∈ es, e2.time - e.time < AutoReloadHandler.reload_delay) →
        List.foldl on_modified s (e :: es) = ⟨e.time, s.reloads + 1⟩)
    ∧ (∀ (now : Int) (st : FileWatcher) (entries : List ScanEntry),
        now - st.last_reload < FileWatcher.reload_delay →
        check_for_changes now st entries = st) := by
  refine ⟨?_, ?_, ?_, ?_⟩
  · intro s e hd hw ht
    unfold on_modified
    rw [if_neg (by rw [hd]; exact Bool.false_ne_true),
      if_neg (by rw [hw]; exact Bool.false_ne_true), if_pos ht]
  · intro s e hd hw ht
    exact on_modified_accepts s e hd hw ht
  · intro s e es hd hw ht hes
    rw [List.foldl_cons, on_modified_accepts s e hd hw ht]
    exact on_modified_frozen e.time (s.reloads + 1) es hes
  · intro now st entries h
    unfold check_for_changes
    rw [if_pos h]

/-- Witness for C5: two change notifications in the same time unit; only
the first advances the count. -/
theorem debounce_single_advance_witness :
    watchedPath "index.html" = true
    ∧ ¬ ((10 : Int) - 0 < AutoReloadHandler.reload_delay)
    ∧ ((10 : Int) - 10 < AutoReloadHandler.reload_delay)
    ∧ List.foldl on_modified ⟨0, 0⟩
        [⟨false, "index.html", 10⟩, ⟨false, "style.css", 10⟩] = ⟨10, 1⟩ :=
  ⟨by decide, by decide, by decide,
    debounce_single_advance.2.2.1 ⟨0, 0⟩ ⟨false, "index.html", 10⟩
      [⟨false, "style.css", 10⟩] rfl (by decide) (by decide) (by decide)⟩

/-- C6: the polling cycle, once past the debounce guard, walks the scan
entries in order; the first known relevant file with a strictly newer
timestamp triggers: its snapshot entry is updated, the reload count
advances by one, last_reload becomes the cycle time, and no further entry
is scanned (the result does not depend on the remaining entries); a path
not previously seen is recorded in the snapshot and scanning continues
without a trigger; a known file without a newer timestamp is passed
over. -/
theorem polling_first_newer_triggers :
    (∀ (now : Int) (ft : List (String × Int)) (last : Int) (r : Nat)
        (e : ScanEntry) (rest : List ScanEntry) (m old : Int),
        relevantEntry e = true → e.mtime = some m →
        List.lookup e.path ft = some old → old < m →
        check_loop now ft last r (e :: rest) = ⟨dictInsert e.path m ft, now, r + 1⟩)
    ∧ (∀ (now : Int) (ft : List (String × Int)) (last : Int) (r : Nat)
        (e : ScanEntry) (rest : List ScanEntry) (m : Int),
        relevantEntry e = true → e.mtime = some m →
        List.lookup e.path ft = none →
        check_loop now ft last r (e :: rest)
          = check_loop now (dictInsert e.path m ft) last r rest)
    ∧ (∀ (now : Int) (ft : List (String × Int)) (last : Int) (r : Nat)
        (e : ScanEntry) (rest : List ScanEntry) (m old : Int),
        relevantEntry e = true → e.mtime = some m →
        List.lookup e.path ft = some old → ¬ old < m →
        check_loop now ft last r (e :: rest) = check_loop now ft last r rest)
    ∧ (∀ (now : Int) (st : FileWatcher) (entries : List ScanEntry),
        ¬ now - st.last_reload < FileWatcher.reload_delay →
        check_for_changes now st entries
          = check_loop now st.file_times st.last_reload st.reloads entries) := by
  refine ⟨?_, ?_, ?_, ?_⟩
  · intro now ft last r e rest m old hrel hm hl hlt
    simp [check_loop, hrel, hm, hl, hlt]
  · intro now ft last r e rest m hrel hm hl
    simp [check_loop, hrel, hm, hl]
  · intro now ft last r e rest m old hrel hm hl hlt
    simp [check_loop, hrel, hm, hl, hlt]
  · intro now st entries h
    unfold check_for_changes
    rw [if_neg h]

/-- Witness for C6: a known file grew newer; the cycle triggers on it,
updates its entry, and ignores the rest of the scan. -/
theorem polling_first_newer_triggers_witness :
    relevantEntry ⟨"a.html", true, ".html", some 6⟩ = true
    ∧ List.lookup "a.html" [("a.html", (5 : Int))] = some 5
    ∧ check_loop 10 [("a.html", 5)] 0 0
        [⟨"a.html", true, ".html", some 6⟩, ⟨"b.css", true, ".css", some 9⟩]
      = ⟨[("a.html", 6)], 10, 1⟩ := by
  refine ⟨by decide, by decide, ?_⟩
  have h := polling_first_newer_triggers.1 10 [("a.html", 5)] 0 0
    ⟨"a.html", true, ".html", some 6⟩ [⟨"b.css", true, ".css", some 9⟩] 6 5
    (by decide) rfl (by decide) (by decide)
  rw [h]
  decide

/-- C7: modification events for directories or for paths outside the
watched extension set never change the event driven detector state (so
never advance the reload count), and scan entries that are not relevant
regular files (wrong suffix, or a directory) are skipped unchanged by the
polling loop. -/
theorem extension_filter_never_advances :
    (∀ (s : AutoReloadHandler) (e : FsEvent), e.is_directory = true →
        on_modified s e = s)
    ∧ (∀ (s : AutoReloadHandler) (e : FsEvent), watchedPath e.src_path = false →
        on_modified s e = s)
    ∧ (∀ (now : Int) (ft : List (String × Int)) (last : Int) (r : Nat)
        (e : ScanEntry) (rest : List ScanEntry), relevantEntry e = false →
        check_loop now ft last r (e :: rest) = check_loop now ft last r rest) := by
  refine ⟨?_, ?_, ?_⟩
  · intro s e hd
    unfold on_modified
    rw [if_pos (by rw [hd])]
  · intro s e hw
    unfold on_modified
    cases hd : e.is_directory with
    | true => rw [if_pos rfl]
    | false =>
      rw [if_neg Bool.false_ne_true, if_pos (by simp [hw])]
  · intro now ft last r e rest hrel
    simp [check_loop, hrel]

/-- Witness for C7: a directory event, a .txt event and a .txt scan entry
all leave the detectors unchanged. -/
theorem extension_filter_never_advances_witness :
    ((⟨true, "site", 10⟩ : FsEvent).is_directory = true)
    ∧ watchedPath "notes.txt" = false
    ∧ relevantEntry ⟨"readme.txt", true, ".txt", some 3⟩ = false
    ∧ on_modified ⟨0, 0⟩ ⟨true, "site", 10⟩ = ⟨0, 0⟩
    ∧ on_modified ⟨0, 0⟩ ⟨false, "notes.txt", 10⟩ = ⟨0, 0⟩
    ∧ check_loop 10 [] 0 0 [⟨"readme.txt", true, ".txt", some 3⟩]
        = check_loop 10 [] 0 0 [] :=
  ⟨rfl, by decide, by decide,
    extension_filter_never_advances.1 ⟨0, 0⟩ ⟨true, "site", 10⟩ rfl,
    extension_filter_never_advances.2.1 ⟨0, 0⟩ ⟨false, "notes.txt", 10⟩ (by decide),
    extension_filter_never_advances.2.2 10 [] 0 0
      ⟨"readme.txt", true, ".txt", some 3⟩ [] (by decide)⟩

/-- C8 counterexample: a watched file vanishes (its stat raises during
the cycle); the cycle completes without fault and without advancing the
reload count, but the snapshot entry of the vanished file is still
present afterwards: check_for_changes never removes entries, contradicting
the claimed removal. -/
theorem vanished_entry_persists :
    check_for_changes 10 ⟨[("a.html", 5)], 0, 0⟩ [⟨"a.html", true, ".html", none⟩]
      = ⟨[("a.html", 5)], 0, 0⟩
    ∧ List.lookup "a.html"
        (check_for_changes 10 ⟨[("a.html", 5)], 0, 0⟩
          [⟨"a.html", true, ".html", none⟩]).file_times = some 5 := by
  exact ⟨by decide, by decide⟩

/-- C8 (amended): a failed stat (including a vanished file) makes the
loop treat the path as unchanged for this cycle: the cycle continues with
the remaining entries, never faults, never advances the reload count on
account of that path, and leaves the snapshot entry in place (it is NOT
removed; only a full scan_files rebuild would drop it); an exhausted scan
ends the cycle with the state unchanged. -/
theorem missing_file_skipped_not_removed :
    (∀ (now : Int) (ft : List (String × Int)) (last : Int) (r : Nat)
        (e : ScanEntry) (rest : List ScanEntry), e.mtime = none →
        check_loop now ft last r (e :: rest) = check_loop now ft last r rest)
    ∧ (∀ (now : Int) (ft : List (String × Int)) (last : Int) (r : Nat),
        check_loop now ft last r [] = ⟨ft, last, r⟩) := by
  constructor
  · intro now ft last r e rest hm
    cases hrel : relevantEntry e with
    | true => simp [check_loop, hrel, hm]
    | false => simp [check_loop, hrel]
  · intro now ft last r
    rfl

/-- Witness for C8: the vanished entry is skipped and the cycle goes on
with the remaining entries. -/
theorem missing_file_skipped_not_removed_witness :
    ((⟨"a.html", true, ".html", none⟩ : ScanEntry).mtime = none)
    ∧ check_loop 10 [("a.html", 5)] 0 0
        [⟨"a.html", true, ".html", none⟩, ⟨"b.css", true, ".css", some 4⟩]
      = check_loop 10 [("a.html", 5)] 0 0 [⟨"b.css", true, ".css", some 4⟩] :=
  ⟨rfl,
    missing_file_skipped_not_removed.1 10 [("a.html", 5)] 0 0
      ⟨"a.html", true, ".html", none⟩ [⟨"b.css", true, ".css", some 4⟩] rfl⟩
